import Mathlib

/-!
Verification development for the ASRPolisvoorwaarden policy-comparison tool
(`app.py`).  The file shallowly embeds the orchestration logic of the
program: best-effort two-backend PDF text extraction (`read_pdf_bytes`),
API-credential resolution (`get_model_api_key` and the effective-key
computation in `main`), character-budget truncation and request assembly
(`trunc`, the two user-message templates), and the regex-based recovery of
a fenced csv block from model output (`extract_csv_block`).

Modelling conventions:
- Backends (PyMuPDF alias `fitz`, and `pdfplumber`) are modelled by the
  observable trace of one invocation: whether the library imported
  (`available`), whether the guarded block raised (`raised`), and the list
  of per-page texts appended to `parts` before the block finished or
  raised.  The Python code appends inside the `try`, so a backend that
  raises after yielding pages leaves those pages in `parts`; the model
  keeps that behaviour.  All exceptions are swallowed by the source
  (`except Exception: pass`), so the embedding is a total function: the
  impossibility of an outward exception is represented by totality.
- `pdfplumber` page texts go through `page.extract_text() or ""`, so a
  page is modelled as `Option String` defaulted to the empty string.
- The regex `r"` ++ "```" ++ `csv\s*(.*?)```"` with `DOTALL` and
  `IGNORECASE` is embedded as an explicit leftmost scan over the character
  list: at each position try to match the opening delimiter (three
  backticks followed by the tag, letters matched case-insensitively),
  then skip the maximal whitespace run (`\s*` is greedy and the closing
  delimiter starts with a non-whitespace character, so the engine never
  has to give any of it back), then take the shortest prefix ending at
  the next occurrence of three backticks (`(.*?)` is lazy).  Whitespace is
  the ASCII whitespace class, which covers every input in the claims.
- Python truthiness of `str`/`None` values (`if not key`, `a or b`) is
  modelled by `truthy` on `Option String`.
-/

/-- One observed run of the primary backend (PyMuPDF, imported as `fitz`):
`available` is `fitz is not None`, `raised` records whether the guarded
block raised, and `pages` is the list of page texts appended to `parts`
before the block finished or raised. -/
structure FitzOutcome where
  available : Bool
  raised : Bool
  pages : List String
deriving DecidableEq

/-- One observed run of the secondary backend (`pdfplumber`): each appended
page value is `page.extract_text()`, which may be `None`. -/
structure PdfplumberOutcome where
  available : Bool
  raised : Bool
  pages : List (Option String)
deriving DecidableEq

/-- Python `"\n".join(parts)`. -/
def joinParts : List String → String
  | [] => ("")
  | [p] => p
  | p :: q :: rest => p ++ ("\n") ++ joinParts (q :: rest)

/-- The value of `parts` at the `return` of `read_pdf_bytes`: page texts of
the primary run if any were appended, otherwise the secondary run's page
texts (with `None` replaced by the empty string, per `extract_text() or ""`),
otherwise empty. -/
def partsUsed (prim : FitzOutcome) (sec : PdfplumberOutcome) : List String :=
  let parts := if prim.available then prim.pages else []
  if parts.isEmpty && sec.available then sec.pages.map (fun p => p.getD ("")) else parts

/-- Embedding of `read_pdf_bytes`: join the accumulated parts with newline
separators.  Totality of this function models the never-raise policy of the
source (every backend failure is swallowed). -/
def read_pdf_bytes (prim : FitzOutcome) (sec : PdfplumberOutcome) : String :=
  joinParts (partsUsed prim sec)

/-- The text the secondary backend produces on its own: its per-page texts
(after the `or ""` defaulting) joined with newline separators, and nothing
when the library is unavailable. -/
def secondary_text (sec : PdfplumberOutcome) : String :=
  joinParts (if sec.available then sec.pages.map (fun p => p.getD ("")) else [])

/-- Python truthiness of an optional string: `None` and `""` are falsy. -/
def truthy : Option String → Bool
  | none => false
  | some s => !(s == (""))

/-- Python `a or b` on optional strings. -/
def pyOr (a b : Option String) : Option String :=
  if truthy a then a else b

/-- Embedding of `get_model_api_key`: the two secrets-store lookups (a
lookup that raises is passed in as `none`, exactly what the `except` arms
assign) followed by the two environment lookups combined with `or`. -/
def get_model_api_key (secretsAI secretsLegacy envAI envLegacy : Option String) : Option String :=
  let key := secretsAI
  let key := if truthy key then key else secretsLegacy
  let key := if truthy key then key else pyOr envAI envLegacy
  key

/-- Embedding of `effective_key = provided_key or get_model_api_key()` from
`main` (the sidebar text input yields `""` when left empty). -/
def effective_key (provided : String) (secretsAI secretsLegacy envAI envLegacy : Option String) :
    Option String :=
  if provided == ("") then get_model_api_key secretsAI secretsLegacy envAI envLegacy
  else some provided

/-- The backtick character. -/
def btick : Char := Char.ofNat 96

/-- The ASCII whitespace class of the regex `\s` and of `str.strip()`. -/
def pyIsSpace (c : Char) : Bool :=
  c == ' ' || c == '\t' || c == '\n' || c == '\r' || c == '\x0b' || c == '\x0c'

/-- Does the list start with the opening delimiter: three backticks followed
by the tag `csv`, tag letters matched case-insensitively (`re.IGNORECASE`)? -/
def isOpen (l : List Char) : Bool :=
  match l with
  | a :: b :: c :: d :: e :: f :: _ =>
    a == btick && b == btick && c == btick &&
      (d == 'c' || d == 'C') && (e == 's' || e == 'S') && (f == 'v' || f == 'V')
  | _ => false

/-- Does the list start with the closing delimiter (three backticks)? -/
def isFence (l : List Char) : Bool :=
  match l with
  | a :: b :: c :: _ => a == btick && b == btick && c == btick
  | _ => false

/-- Lazy completion of the match: the shortest prefix whose end is followed
by three backticks, `none` when no closing delimiter occurs (`(.*?)` with
`re.DOTALL` consumes any character, including newlines). -/
def splitAtFence : List Char → Option (List Char)
  | [] => none
  | c :: rest =>
    if isFence (c :: rest) then some []
    else (splitAtFence rest).map (fun g => c :: g)

/-- Leftmost scan of `re.search`: at each position try the opening
delimiter; on success skip the maximal whitespace run (`\s*`) and complete
lazily; a position where the opening delimiter matches but no closing
delimiter follows fails, and the scan resumes one character further on. -/
def searchFrom : List Char → Option (List Char)
  | [] => none
  | c :: rest =>
    if isOpen (c :: rest) then
      match splitAtFence ((rest.drop 5).dropWhile pyIsSpace) with
      | some g => some g
      | none => searchFrom rest
    else searchFrom rest

/-- Python `str.strip()` on a character list. -/
def pyStrip (l : List Char) : List Char :=
  ((l.dropWhile pyIsSpace).reverse.dropWhile pyIsSpace).reverse

/-- Python `str.strip()` on strings. -/
def pyStripS (s : String) : String :=
  ⟨pyStrip s.toList⟩

/-- Embedding of `extract_csv_block`: `re.search` for the fenced csv block,
`.group(1).strip()` on success, `None` otherwise. -/
def extract_csv_block (text : String) : Option String :=
  (searchFrom text.toList).map (fun g => (⟨pyStrip g⟩ : String))

/-- Does some position of the list carry the opening delimiter? -/
def hasOpen : List Char → Bool
  | [] => false
  | c :: rest => isOpen (c :: rest) || hasOpen rest

/-- Does some position of the list carry three consecutive backticks? -/
def containsFence : List Char → Bool
  | [] => false
  | c :: rest => isFence (c :: rest) || containsFence rest

/-- Does the text contain a complete fenced csv region: an opening
delimiter with a closing delimiter somewhere after it? -/
def hasRegion : List Char → Bool
  | [] => false
  | c :: rest => (isOpen (c :: rest) && containsFence (rest.drop 5)) || hasRegion rest

/-- The opening delimiter as a string, with selectable letter case. -/
def mkOpen (c s v : Char) : String :=
  ⟨[btick, btick, btick, c, s, v]⟩

/-- Embedding of `trunc` from `main`: `s[:max_chars]`, the first
`maxChars` characters. -/
def trunc (maxChars : Nat) (s : String) : String :=
  ⟨s.toList.take maxChars⟩

/-- A single-quote character (used by the message templates around the
detected insurer name). -/
def squote : String :=
  ⟨[Char.ofNat 39]⟩

/-- Embedding of the `user_msg` assembled in the `Simpel` branch of
`main`. -/
def user_msg_simple (wantTable : Bool) (otherName : Option String) (maxChars : Nat)
    (textAsr textOther : String) : String :=
  ("Geef beknopt de belangrijkste verschillen.")
    ++ (if wantTable then (" Voeg ook de compacte tabel en CSV toe.") else (""))
    ++ (match otherName with
        | some n =>
          (" Gebruik voor de maatschappij-rij indien mogelijk: ") ++ squote ++ n ++ squote ++ (".")
        | none => (""))
    ++ ("\n\n")
    ++ ("ASR (ingekort):\n") ++ trunc maxChars textAsr ++ ("\n\n")
    ++ ("Andere verzekeraar (ingekort):\n") ++ trunc maxChars textOther ++ ("\n")

/-- Embedding of the `user_msg` assembled in the `Uitgebreid` branch of
`main`. -/
def user_msg_detailed (otherName : Option String) (maxChars : Nat)
    (textAsr textOther : String) : String :=
  ("Vergelijk onderstaande polisvoorwaarden. Houd je strikt aan de system prompt.\n\n")
    ++ (match otherName with
        | some n =>
          ("Indien je de andere maatschappij kunt vaststellen, gebruik die in de eerste rij ")
            ++ squote ++ ("Maatschappij") ++ squote ++ (": ") ++ squote ++ n ++ squote
            ++ (".\n\n")
        | none => (""))
    ++ ("ASR (volledige tekst, mogelijk ingekort):\n") ++ trunc maxChars textAsr ++ ("\n\n")
    ++ ("Andere verzekeraar (volledige tekst, mogelijk ingekort):\n")
    ++ trunc maxChars textOther ++ ("\n")

lemma stoList_append (a b : String) : (a ++ b).toList = a.toList ++ b.toList :=
  String.data_append a b

lemma btick_not_c : (btick == 'c' || btick == 'C') = false := by decide

lemma btick_not_s : (btick == 's' || btick == 'S') = false := by decide

lemma btick_not_v : (btick == 'v' || btick == 'V') = false := by decide

lemma pyIsSpace_btick : pyIsSpace btick = false := by decide

lemma pyIsSpace_ne_btick {c : Char} (h : pyIsSpace c = true) : (c == btick) = false := by
  by_cases hb : (c == btick) = true
  · have hc : c = btick := by simpa using hb
    subst hc
    simp [pyIsSpace_btick] at h
  · simpa using hb

lemma isOpen_append_left : ∀ (l X : List Char), 6 ≤ l.length → isOpen (l ++ X) = isOpen l
  | a :: b :: c :: d :: e :: f :: t, X, _ => rfl
  | [], _, h => by simp at h
  | [a], _, h => by simp at h
  | [a, b], _, h => by simp at h
  | [a, b, c], _, h => by simp at h
  | [a, b, c, d], _, h => by simp at h
  | [a, b, c, d, e], _, h => by simp at h

lemma isOpen_straddle : ∀ (d : List Char), d ≠ [] → d.length ≤ 5 →
    ∀ (tc ts tv : Char) (m : List Char),
      isOpen (d ++ (btick :: btick :: btick :: tc :: ts :: tv :: m)) = false
  | [], hne, _ => absurd rfl hne
  | [a], _, _ => by intro tc ts tv m; simp [isOpen, btick_not_c]
  | [a, b], _, _ => by intro tc ts tv m; simp [isOpen, btick_not_c]
  | [a, b, c], _, _ => by intro tc ts tv m; simp [isOpen, btick_not_c]
  | [a, b, c, d], _, _ => by intro tc ts tv m; simp [isOpen, btick_not_s]
  | [a, b, c, d, e], _, _ => by intro tc ts tv m; simp [isOpen, btick_not_v]
  | a :: b :: c :: d :: e :: f :: t, _, h => by simp at h

lemma dropWhile_append_btick (xs zs : List Char) :
    (xs ++ (btick :: zs)).dropWhile pyIsSpace = xs.dropWhile pyIsSpace ++ (btick :: zs) := by
  induction xs with
  | nil => simp [List.dropWhile_cons, pyIsSpace_btick]
  | cons x xs ih =>
    by_cases h : pyIsSpace x = true
    · simp [List.dropWhile_cons, h, ih]
    · simp [List.dropWhile_cons, h]

lemma isFence_append_two : ∀ (c : Char) (g zs : List Char),
    isFence (c :: (g ++ (btick :: btick :: btick :: zs))) =
      isFence (c :: (g ++ [btick, btick]))
  | c, [], zs => rfl
  | c, [x], zs => rfl
  | c, x :: y :: t, zs => rfl

lemma containsFence_of_suffix : ∀ (s l : List Char),
    containsFence (s ++ l) = false → containsFence l = false
  | [], l, h => h
  | a :: s, l, h => by
    simp [containsFence] at h
    exact containsFence_of_suffix s l h.2

lemma splitAtFence_append : ∀ (g zs : List Char),
    containsFence (g ++ [btick, btick]) = false →
    splitAtFence (g ++ (btick :: btick :: btick :: zs)) = some g
  | [], zs, _ => by simp [splitAtFence, isFence]
  | c :: g, zs, h => by
    have h' : isFence (c :: (g ++ [btick, btick])) = false ∧
        containsFence (g ++ [btick, btick]) = false := by
      simpa [containsFence] using h
    have h3 : isFence (c :: (g ++ (btick :: btick :: btick :: zs))) = false := by
      rw [isFence_append_two]; exact h'.1
    simp [splitAtFence, h3, splitAtFence_append g zs h'.2]

lemma splitAtFence_eq_none : ∀ (l : List Char),
    containsFence l = false → splitAtFence l = none
  | [], _ => rfl
  | c :: rest, h => by
    have h' : isFence (c :: rest) = false ∧ containsFence rest = false := by
      simpa [containsFence] using h
    simp [splitAtFence, h'.1, splitAtFence_eq_none rest h'.2]

lemma splitAtFence_isSome : ∀ (l : List Char),
    containsFence l = true → (splitAtFence l).isSome = true
  | [], h => by simp [containsFence] at h
  | c :: rest, h => by
    by_cases hf : isFence (c :: rest) = true
    · simp [splitAtFence, hf]
    · have hc : containsFence rest = true := by
        have h2 : isFence (c :: rest) = true ∨ containsFence rest = true := by
          simpa [containsFence] using h
        rcases h2 with hx | hx
        · exact absurd hx hf
        · exact hx
      have ih := splitAtFence_isSome rest hc
      simp [splitAtFence, hf, ih]

lemma containsFence_dropWhile : ∀ (l : List Char),
    containsFence (l.dropWhile pyIsSpace) = containsFence l
  | [] => rfl
  | c :: rest => by
    by_cases h : pyIsSpace c = true
    · have hb : (c == btick) = false := pyIsSpace_ne_btick h
      have hf : isFence (c :: rest) = false := by
        cases rest with
        | nil => rfl
        | cons d rest' =>
          cases rest' with
          | nil => rfl
          | cons e t => simp [isFence, hb]
      simp [List.dropWhile_cons, h, containsFence, hf, containsFence_dropWhile rest]
    · simp [List.dropWhile_cons, h]

lemma searchFrom_cons_pos (c : Char) (rest : List Char) (h : isOpen (c :: rest) = true) :
    searchFrom (c :: rest) =
      match splitAtFence ((rest.drop 5).dropWhile pyIsSpace) with
      | some g => some g
      | none => searchFrom rest := by
  simp [searchFrom, h]

lemma searchFrom_cons_neg (c : Char) (rest : List Char) (h : isOpen (c :: rest) = false) :
    searchFrom (c :: rest) = searchFrom rest := by
  simp [searchFrom, h]

lemma containsFence_dropWhile_two (content : List Char)
    (h2 : containsFence (content ++ [btick, btick]) = false) :
    containsFence (content.dropWhile pyIsSpace ++ [btick, btick]) = false := by
  obtain ⟨s, hs⟩ := List.dropWhile_suffix (l := content) pyIsSpace
  have : containsFence (s ++ (content.dropWhile pyIsSpace ++ [btick, btick])) = false := by
    rw [← List.append_assoc, hs]; exact h2
  exact containsFence_of_suffix s _ this

lemma searchFrom_decompose (tc ts tv : Char)
    (htc : (tc == 'c' || tc == 'C') = true)
    (hts : (ts == 's' || ts == 'S') = true)
    (htv : (tv == 'v' || tv == 'V') = true) :
    ∀ (pre content post : List Char), hasOpen pre = false →
      containsFence (content ++ [btick, btick]) = false →
      searchFrom (pre ++ (btick :: btick :: btick :: tc :: ts :: tv ::
          (content ++ (btick :: btick :: btick :: post)))) =
        some (content.dropWhile pyIsSpace)
  | [], content, post, _, h2 => by
    have ho : isOpen (btick :: btick :: btick :: tc :: ts :: tv ::
        (content ++ (btick :: btick :: btick :: post))) = true := by
      simp [isOpen, htc, hts, htv]
    rw [List.nil_append, searchFrom_cons_pos _ _ ho]
    have hd : (btick :: btick :: tc :: ts :: tv ::
        (content ++ (btick :: btick :: btick :: post))).drop 5 =
        content ++ (btick :: (btick :: btick :: post)) := rfl
    rw [hd, dropWhile_append_btick,
      splitAtFence_append _ _ (containsFence_dropWhile_two content h2)]
  | a :: pre, content, post, h1, h2 => by
    have h1' : isOpen (a :: pre) = false ∧ hasOpen pre = false := by
      simpa [hasOpen] using h1
    have step : isOpen ((a :: pre) ++ (btick :: btick :: btick :: tc :: ts :: tv ::
        (content ++ (btick :: btick :: btick :: post)))) = false := by
      by_cases hl : 6 ≤ (a :: pre).length
      · rw [isOpen_append_left _ _ hl]; exact h1'.1
      · exact isOpen_straddle (a :: pre) (by simp)
          (by simp only [List.length_cons] at hl ⊢; omega) tc ts tv _
    rw [List.cons_append, searchFrom_cons_neg _ _ (by simpa using step)]
    exact searchFrom_decompose tc ts tv htc hts htv pre content post h1'.2 h2

lemma dropWhile_dropWhile (l : List Char) :
    (l.dropWhile pyIsSpace).dropWhile pyIsSpace = l.dropWhile pyIsSpace := by
  induction l with
  | nil => rfl
  | cons c rest ih =>
    by_cases h : pyIsSpace c = true
    · simp [List.dropWhile_cons, h, ih]
    · simp [List.dropWhile_cons, h]

lemma pyStrip_dropWhile (l : List Char) :
    pyStrip (l.dropWhile pyIsSpace) = pyStrip l := by
  simp [pyStrip, dropWhile_dropWhile]

lemma searchFrom_none_of_noRegion : ∀ (l : List Char),
    hasRegion l = false → searchFrom l = none
  | [], _ => rfl
  | c :: rest, h => by
    have h' : (isOpen (c :: rest) = true → containsFence (rest.drop 5) = false) ∧
        hasRegion rest = false := by
      simpa [hasRegion, Bool.and_eq_false_iff] using h
    by_cases ho : isOpen (c :: rest) = true
    · have hcf : containsFence (rest.drop 5) = false := h'.1 ho
      have hsp : splitAtFence ((rest.drop 5).dropWhile pyIsSpace) = none :=
        splitAtFence_eq_none _ (by rw [containsFence_dropWhile]; exact hcf)
      rw [searchFrom_cons_pos _ _ ho, hsp]
      exact searchFrom_none_of_noRegion rest h'.2
    · rw [searchFrom_cons_neg _ _ (by simpa using ho)]
      exact searchFrom_none_of_noRegion rest h'.2

lemma searchFrom_isSome_of_region : ∀ (l : List Char),
    hasRegion l = true → (searchFrom l).isSome = true
  | [], h => by simp [hasRegion] at h
  | c :: rest, h => by
    have h' : (isOpen (c :: rest) = true ∧ containsFence (rest.drop 5) = true) ∨
        hasRegion rest = true := by
      simpa [hasRegion] using h
    by_cases ho : isOpen (c :: rest) = true
    · rw [searchFrom_cons_pos _ _ ho]
      rcases h' with ⟨_, hcf⟩ | hrest
      · have hsp : (splitAtFence ((rest.drop 5).dropWhile pyIsSpace)).isSome = true :=
          splitAtFence_isSome _ (by rw [containsFence_dropWhile]; exact hcf)
        obtain ⟨g, hg⟩ := Option.isSome_iff_exists.mp hsp
        rw [hg]
        rfl
      · cases hsp : splitAtFence ((rest.drop 5).dropWhile pyIsSpace) with
        | some g => rfl
        | none => exact searchFrom_isSome_of_region rest hrest
    · rw [searchFrom_cons_neg _ _ (by simpa using ho)]
      rcases h' with ⟨hx, _⟩ | hrest
      · exact absurd hx ho
      · exact searchFrom_isSome_of_region rest hrest

lemma toList_mk (l : List Char) : (⟨l⟩ : String).toList = l := rfl

lemma mkOpen_toList (c s v : Char) :
    (mkOpen c s v).toList = [btick, btick, btick, c, s, v] := rfl

lemma joinParts_contains : ∀ (parts : List String) (p : String), p ∈ parts →
    ∃ s t : List Char, (joinParts parts).toList = s ++ p.toList ++ t
  | [], p, h => absurd h (List.not_mem_nil p)
  | [q], p, h => by
    have hq : p = q := by simpa using h
    subst hq
    exact ⟨[], [], by simp [joinParts]⟩
  | q :: r :: rest, p, h => by
    rcases List.mem_cons.mp h with hq | hmem
    · subst hq
      refine ⟨[], '\n' :: (joinParts (r :: rest)).toList, ?_⟩
      simp [joinParts, stoList_append]
    · obtain ⟨s, t, hst⟩ := joinParts_contains (r :: rest) p hmem
      refine ⟨q.toList ++ ('\n' :: s), t, ?_⟩
      simp [joinParts, stoList_append, hst, List.append_assoc]
      simpa [String.toList, List.append_assoc] using hst

/-- Claim C1, counterexample to the claim as stated: a primary run that is
available but raises after appending one page text leaves that text in
`parts`, so `read_pdf_bytes` returns the partial primary text instead of
the secondary backend's text, although the primary "raised".  In the
source the `except` clause around the page loop keeps the pages already
appended, and the fallback is guarded by `if not parts`. -/
theorem read_pdf_bytes_partial_primary_blocks_fallback :
    (FitzOutcome.mk true true [("x")]).raised = true ∧
    read_pdf_bytes (FitzOutcome.mk true true [("x")])
      (PdfplumberOutcome.mk true false [some ("y")]) = ("x") ∧
    secondary_text (PdfplumberOutcome.mk true false [some ("y")]) = ("y") ∧
    ((("x") : String) = ("y") → False) :=
  ⟨rfl, by decide, by decide, by decide⟩

/-- Claim C1, amended: for every input on which the primary backend yields
no page fragment at all (it is unavailable, or it raises or finishes
without appending a page), `read_pdf_bytes` returns exactly the text
produced by the secondary backend, its per-page texts joined with newline
separators.  The never-raises part of the claim is modelled by the
embedding being a total function (every backend failure is a value, not an
exception). -/
theorem read_pdf_bytes_fallback_when_primary_empty (prim : FitzOutcome)
    (sec : PdfplumberOutcome) (h : prim.available = false ∨ prim.pages = []) :
    read_pdf_bytes prim sec = secondary_text sec := by
  rcases h with h | h <;> cases hsa : sec.available <;>
    simp [read_pdf_bytes, partsUsed, secondary_text, h, hsa]

/-- Witness for the amended claim C1 at a concrete input: primary raised
before appending anything, the secondary produced two pages (one of them a
`None` text). -/
theorem read_pdf_bytes_fallback_when_primary_empty_witness :
    read_pdf_bytes (FitzOutcome.mk true true [])
        (PdfplumberOutcome.mk true false [some ("y"), none]) =
      secondary_text (PdfplumberOutcome.mk true false [some ("y"), none]) ∧
    secondary_text (PdfplumberOutcome.mk true false [some ("y"), none]) = ("y\n") :=
  ⟨read_pdf_bytes_fallback_when_primary_empty _ _ (Or.inr rfl), by decide⟩

/-- Claim C5, counterexample to the claim as stated: both backends raise,
but the primary appended one page before raising, so the result is that
partial text rather than the empty string. -/
theorem read_pdf_bytes_partial_primary_nonempty :
    (FitzOutcome.mk true true [("x")]).raised = true ∧
    (PdfplumberOutcome.mk true true []).raised = true ∧
    read_pdf_bytes (FitzOutcome.mk true true [("x")])
      (PdfplumberOutcome.mk true true []) = ("x") ∧
    ((("x") : String) = ("") → False) :=
  ⟨rfl, rfl, by decide, by decide⟩

/-- Claim C5, amended: when the primary backend yields no page fragment
(unavailable, or raising before any page) and the secondary likewise,
`read_pdf_bytes` returns the empty string; a password-protected or
corrupted document, on which both libraries raise at open, is the case
with both page lists empty. -/
theorem read_pdf_bytes_empty_when_both_empty (prim : FitzOutcome)
    (sec : PdfplumberOutcome)
    (hp : prim.available = false ∨ prim.pages = [])
    (hs : sec.available = false ∨ sec.pages = []) :
    read_pdf_bytes prim sec = ("") := by
  rcases hp with hp | hp <;> rcases hs with hs | hs <;>
    simp [read_pdf_bytes, partsUsed, joinParts, hp, hs]

/-- Witness for the amended claim C5: both backends raised at open
(no pages), the result is the empty string. -/
theorem read_pdf_bytes_empty_when_both_empty_witness :
    read_pdf_bytes (FitzOutcome.mk true true []) (PdfplumberOutcome.mk true true []) = ("") :=
  read_pdf_bytes_empty_when_both_empty _ _ (Or.inr rfl) (Or.inr rfl)

/-- Claim C9: whenever the available primary backend appended at least one
page fragment, the result is the newline-join of exactly those fragments,
and the secondary backend's outcome is irrelevant (it is never consulted):
the result is the same against every secondary outcome. -/
theorem read_pdf_bytes_primary_wins (prim : FitzOutcome) (sec : PdfplumberOutcome)
    (h1 : prim.available = true) (h2 : prim.pages ≠ []) :
    read_pdf_bytes prim sec = joinParts prim.pages ∧
    (∀ sec2 : PdfplumberOutcome, read_pdf_bytes prim sec = read_pdf_bytes prim sec2) := by
  have hne : prim.pages.isEmpty = false := by
    cases hp : prim.pages with
    | nil => exact absurd hp h2
    | cons a l => rfl
  constructor
  · simp [read_pdf_bytes, partsUsed, h1, hne]
  · intro sec2
    simp [read_pdf_bytes, partsUsed, h1, hne]

/-- Witness for claim C9: a two-page document whose pages both extract to
empty text yields a single newline separator, not the secondary backend's
text. -/
theorem read_pdf_bytes_primary_wins_witness :
    read_pdf_bytes (FitzOutcome.mk true false [(""), ("")])
      (PdfplumberOutcome.mk true false [some ("zzz")]) = ("\n") := by
  have h := (read_pdf_bytes_primary_wins (FitzOutcome.mk true false [(""), ("")])
    (PdfplumberOutcome.mk true false [some ("zzz")]) rfl (by decide)).1
  rw [h]
  decide

/-- Claim C8: extraction applies no length budget: every page fragment used
occurs whole inside the extraction result (there exist a left and a right
remainder around it); the only character-count truncation, `trunc`, takes
exactly the first `n` characters and is the identity whenever the budget
covers the whole text, and it is applied at request-assembly time, after
extraction. -/
theorem extraction_no_truncation :
    (∀ (prim : FitzOutcome) (sec : PdfplumberOutcome) (p : String),
      p ∈ partsUsed prim sec →
      ∃ s t : List Char, (read_pdf_bytes prim sec).toList = s ++ p.toList ++ t) ∧
    (∀ (n : Nat) (s : String), (trunc n s).toList = s.toList.take n) ∧
    (∀ (n : Nat) (s : String), s.length ≤ n → trunc n s = s) := by
  refine ⟨?_, ?_, ?_⟩
  · intro prim sec p hp
    exact joinParts_contains _ p hp
  · intro n s
    rfl
  · intro n s h
    show (⟨List.take n s.data⟩ : String) = s
    rw [List.take_of_length_le h]

/-- Witness for claim C8: the second page text of a two-page primary run
occurs whole in the extraction result, and a budget at least the length of
a text leaves it unchanged. -/
theorem extraction_no_truncation_witness :
    (∃ s t : List Char,
      (read_pdf_bytes (FitzOutcome.mk true false [("ab"), ("cd")])
        (PdfplumberOutcome.mk false false [])).toList = s ++ ("cd").toList ++ t) ∧
    trunc 9 ("abc") = ("abc") :=
  ⟨extraction_no_truncation.1 _ _ ("cd") (by decide),
   extraction_no_truncation.2.2 9 ("abc") (by decide)⟩

lemma fence_toList : (("```") : String).toList = [btick, btick, btick] := by decide

lemma opencsv_toList :
    (("```csv") : String).toList = [btick, btick, btick, 'c', 's', 'v'] := by decide

lemma extract_csv_block_split (tc ts tv : Char)
    (htc : (tc == 'c' || tc == 'C') = true)
    (hts : (ts == 's' || ts == 'S') = true)
    (htv : (tv == 'v' || tv == 'V') = true)
    (l pre content post : List Char)
    (hl : l = pre ++ (btick :: btick :: btick :: tc :: ts :: tv ::
      (content ++ (btick :: btick :: btick :: post))))
    (h1 : hasOpen pre = false)
    (h2 : containsFence (content ++ [btick, btick]) = false) :
    (searchFrom l).map (fun g => (⟨pyStrip g⟩ : String)) = some (⟨pyStrip content⟩ : String) := by
  rw [hl, searchFrom_decompose tc ts tv htc hts htv pre content post h1 h2]
  simp [pyStrip_dropWhile]

/-- Claim C2: for every text split as an arbitrary region-free part, the
opening delimiter (three backticks followed by the tag, either letter
case), arbitrary content not containing the closing delimiter, the closing
delimiter and an arbitrary tail, `extract_csv_block` returns the content
strictly between the delimiters with surrounding whitespace stripped; the
content may span newlines.  The instance of the claim on the concrete input
`"before ```csv\nA,B\n1,2\n``` after"` is the witness theorem. -/
theorem extract_csv_block_fenced_region (tc ts tv : Char)
    (htc : (tc == 'c' || tc == 'C') = true)
    (hts : (ts == 's' || ts == 'S') = true)
    (htv : (tv == 'v' || tv == 'V') = true)
    (pre content post : String)
    (h1 : hasOpen pre.toList = false)
    (h2 : containsFence (content.toList ++ [btick, btick]) = false) :
    extract_csv_block (pre ++ mkOpen tc ts tv ++ content ++ ("```") ++ post) =
      some (pyStripS content) := by
  apply extract_csv_block_split tc ts tv htc hts htv _ pre.toList content.toList post.toList
    _ h1 h2
  simp only [stoList_append, mkOpen_toList, fence_toList, List.append_assoc,
    List.cons_append, List.nil_append]

/-- Witness for claim C2 at the concrete input of the specification, with
the tag in lower case. -/
theorem extract_csv_block_fenced_region_witness :
    extract_csv_block ("before ```csv\nA,B\n1,2\n``` after") = some ("A,B\n1,2") := by
  have h := extract_csv_block_fenced_region 'c' 's' 'v' (by decide) (by decide) (by decide)
    ("before ") ("\nA,B\n1,2\n") (" after") (by decide) (by decide)
  have he : (("before ```csv\nA,B\n1,2\n``` after") : String) =
      ("before ") ++ mkOpen 'c' 's' 'v' ++ ("\nA,B\n1,2\n") ++ ("```") ++ (" after") := by
    decide
  rw [he, h]
  decide

/-- Claim C3: with two fenced regions with the same tag in the text (and
the trailing part free to contain any further ones), `extract_csv_block`
returns exactly the stripped content of the first region; nothing about
the second region or the tail influences the result. -/
theorem extract_csv_block_first_of_two (pre c1 mid c2 post : String)
    (h1 : hasOpen pre.toList = false)
    (h2 : containsFence (c1.toList ++ [btick, btick]) = false) :
    extract_csv_block (pre ++ ("```csv") ++ c1 ++ ("```") ++ mid
        ++ ("```csv") ++ c2 ++ ("```") ++ post) =
      some (pyStripS c1) := by
  apply extract_csv_block_split 'c' 's' 'v' (by decide) (by decide) (by decide) _
    pre.toList c1.toList (mid ++ ("```csv") ++ c2 ++ ("```") ++ post).toList _ h1 h2
  simp only [stoList_append, opencsv_toList, fence_toList, List.append_assoc,
    List.cons_append, List.nil_append]

/-- Witness for claim C3: a text with two csv regions yields the content of
the first. -/
theorem extract_csv_block_first_of_two_witness :
    extract_csv_block ("x ```csv\nQ,1\n``` y ```csv\nR,2\n``` z") = some ("Q,1") := by
  have h := extract_csv_block_first_of_two ("x ") ("\nQ,1\n") (" y ") ("\nR,2\n") (" z")
    (by decide) (by decide)
  have he : (("x ```csv\nQ,1\n``` y ```csv\nR,2\n``` z") : String) =
      ("x ") ++ ("```csv") ++ ("\nQ,1\n") ++ ("```") ++ (" y ")
        ++ ("```csv") ++ ("\nR,2\n") ++ ("```") ++ (" z") := by
    decide
  rw [he, h]
  decide

/-- Claim C4: on a text containing no fenced csv region (no opening
delimiter followed somewhere by a closing one), `extract_csv_block`
returns `none`, which is distinct from `some ""`: a caller can tell an
empty table apart from no table. -/
theorem extract_csv_block_absent (t : String) (h : hasRegion t.toList = false) :
    extract_csv_block t = none ∧ extract_csv_block t ≠ some ("") := by
  have hn : searchFrom t.data = none := searchFrom_none_of_noRegion _ h
  refine ⟨?_, ?_⟩ <;> simp [extract_csv_block, hn]

/-- Witness for claim C4 on a concrete text without any fenced region. -/
theorem extract_csv_block_absent_witness :
    extract_csv_block ("geen tabel hier, alleen tekst") = none ∧
    extract_csv_block ("geen tabel hier, alleen tekst") ≠ some ("") :=
  extract_csv_block_absent ("geen tabel hier, alleen tekst") (by decide)

/-- Claim C10: a first csv region whose content is only whitespace (for
example an opening delimiter immediately followed by the closing one)
yields `some ""`, a present-but-empty result; and `none` can only occur
when no complete fenced region exists in the text at all. -/
theorem extract_csv_block_empty_block_present :
    (∀ (pre content post : String), hasOpen pre.toList = false →
      containsFence (content.toList ++ [btick, btick]) = false →
      content.toList.all pyIsSpace = true →
      extract_csv_block (pre ++ ("```csv") ++ content ++ ("```") ++ post) = some ("")) ∧
    (∀ (t : String), hasRegion t.toList = true → extract_csv_block t ≠ none) := by
  constructor
  · intro pre content post h1 h2 hws
    have hv : extract_csv_block (pre ++ ("```csv") ++ content ++ ("```") ++ post) =
        some (⟨pyStrip content.toList⟩ : String) := by
      apply extract_csv_block_split 'c' 's' 'v' (by decide) (by decide) (by decide) _
        pre.toList content.toList post.toList _ h1 h2
      simp only [stoList_append, opencsv_toList, fence_toList, List.append_assoc,
        List.cons_append, List.nil_append]
    rw [hv]
    have hdw : List.dropWhile pyIsSpace content.data = [] :=
      List.dropWhile_eq_nil_iff.mpr (fun x hx => by
        have hall := List.all_eq_true.mp hws x hx
        simpa using hall)
    simp [pyStrip, hdw]
  · intro t h hnone
    have hsome := searchFrom_isSome_of_region t.toList h
    have hn : searchFrom t.toList = none := by
      simpa [extract_csv_block] using hnone
    rw [hn] at hsome
    simp at hsome

/-- Witness for claim C10: an opening delimiter immediately followed by the
closing one yields the empty string as a present result, and a text with a
complete region never maps to the absence signal. -/
theorem extract_csv_block_empty_block_present_witness :
    extract_csv_block ("a```csv```b") = some ("") ∧
    extract_csv_block ("x```csv\nQ\n```y") ≠ none := by
  constructor
  · have h := extract_csv_block_empty_block_present.1 ("a") ("") ("b")
      (by decide) (by decide) (by decide)
    have he : (("a```csv```b") : String) =
        ("a") ++ ("```csv") ++ ("") ++ ("```") ++ ("b") := by decide
    rw [he, h]
  · exact extract_csv_block_empty_block_present.2 ("x```csv\nQ\n```y") (by decide)

/-- Claim C6: `trunc` yields exactly the first `n` characters (`List.take`
on the character list), of length exactly the budget when the budget is
smaller than the text, and the whole text when the budget covers it; and
both request payloads contain the two truncated copies verbatim, each
surrounded by fixed template material. -/
theorem trunc_payload_spec :
    (∀ (n : Nat) (s : String), (trunc n s).toList = s.toList.take n) ∧
    (∀ (n : Nat) (s : String), n < s.length → (trunc n s).length = n) ∧
    (∀ (n : Nat) (s : String), s.length ≤ n → trunc n s = s) ∧
    (∀ (wt : Bool) (oname : Option String) (n : Nat) (ta tb : String),
      ∃ p q r : List Char, (user_msg_simple wt oname n ta tb).toList =
        p ++ ta.toList.take n ++ q ++ tb.toList.take n ++ r) ∧
    (∀ (oname : Option String) (n : Nat) (ta tb : String),
      ∃ p q r : List Char, (user_msg_detailed oname n ta tb).toList =
        p ++ ta.toList.take n ++ q ++ tb.toList.take n ++ r) := by
  refine ⟨fun n s => rfl, ?_, ?_, ?_, ?_⟩
  · intro n s h
    show (List.take n s.data).length = n
    rw [List.length_take]
    exact Nat.min_eq_left (Nat.le_of_lt h)
  · intro n s h
    show (⟨List.take n s.data⟩ : String) = s
    rw [List.take_of_length_le h]
  · intro wt oname n ta tb
    refine ⟨(("Geef beknopt de belangrijkste verschillen.")
        ++ (if wt then (" Voeg ook de compacte tabel en CSV toe.") else (""))
        ++ (match oname with
            | some nm => (" Gebruik voor de maatschappij-rij indien mogelijk: ")
                ++ squote ++ nm ++ squote ++ (".")
            | none => (""))
        ++ ("\n\n") ++ ("ASR (ingekort):\n")).toList,
      (("\n\n") ++ ("Andere verzekeraar (ingekort):\n")).toList,
      (("\n") : String).toList, ?_⟩
    simp only [user_msg_simple, trunc, stoList_append, toList_mk, List.append_assoc]
  · intro oname n ta tb
    refine ⟨(("Vergelijk onderstaande polisvoorwaarden. Houd je strikt aan de system prompt.\n\n")
        ++ (match oname with
            | some nm =>
              ("Indien je de andere maatschappij kunt vaststellen, gebruik die in de eerste rij ")
                ++ squote ++ ("Maatschappij") ++ squote ++ (": ") ++ squote ++ nm ++ squote
                ++ (".\n\n")
            | none => (""))
        ++ ("ASR (volledige tekst, mogelijk ingekort):\n")).toList,
      (("\n\n") ++ ("Andere verzekeraar (volledige tekst, mogelijk ingekort):\n")).toList,
      (("\n") : String).toList, ?_⟩
    simp only [user_msg_detailed, trunc, stoList_append, toList_mk, List.append_assoc]

/-- Witness for claim C6: a budget of 2 on a 4-character text keeps exactly
the first 2 characters, a budget of 9 keeps the text whole, and the simple
payload on concrete inputs contains the truncated copies. -/
theorem trunc_payload_spec_witness :
    (trunc 2 ("abcd")).toList = ("abcd").toList.take 2 ∧
    (trunc 2 ("abcd")).length = 2 ∧
    trunc 9 ("abcd") = ("abcd") ∧
    (∃ p q r : List Char, (user_msg_simple true none 2 ("abcd") ("wxyz")).toList =
      p ++ ("abcd").toList.take 2 ++ q ++ ("wxyz").toList.take 2 ++ r) :=
  ⟨trunc_payload_spec.1 2 ("abcd"),
   trunc_payload_spec.2.1 2 ("abcd") (by decide),
   trunc_payload_spec.2.2.1 9 ("abcd") (by decide),
   trunc_payload_spec.2.2.2.1 true none 2 ("abcd") ("wxyz")⟩

/-- Claim C7: the effective credential prefers the explicit sidebar value
whenever it is non-empty, regardless of every store; with it empty, the
secrets store under the primary key wins when truthy, then the secrets
store under the legacy key, then the environment under the primary name,
then the environment under the legacy name. -/
theorem effective_key_precedence (provided : String)
    (sAI sLeg eAI eLeg : Option String) :
    (provided ≠ ("") → effective_key provided sAI sLeg eAI eLeg = some provided) ∧
    (provided = ("") → truthy sAI = true →
      effective_key provided sAI sLeg eAI eLeg = sAI) ∧
    (provided = ("") → truthy sAI = false → truthy sLeg = true →
      effective_key provided sAI sLeg eAI eLeg = sLeg) ∧
    (provided = ("") → truthy sAI = false → truthy sLeg = false → truthy eAI = true →
      effective_key provided sAI sLeg eAI eLeg = eAI) ∧
    (provided = ("") → truthy sAI = false → truthy sLeg = false → truthy eAI = false →
      effective_key provided sAI sLeg eAI eLeg = eLeg) := by
  refine ⟨?_, ?_, ?_, ?_, ?_⟩ <;> intros <;>
    simp_all [effective_key, get_model_api_key, pyOr]

/-- Witness for claim C7: an explicit value beats a present secrets-store
value, and with the explicit value empty the secrets store wins over the
environment. -/
theorem effective_key_precedence_witness :
    effective_key ("k-explicit") (some ("k-secrets")) none none none = some ("k-explicit") ∧
    effective_key ("") (some ("k-secrets")) none (some ("k-env")) none = some ("k-secrets") :=
  ⟨(effective_key_precedence ("k-explicit") (some ("k-secrets")) none none none).1
      (by decide),
   (effective_key_precedence ("") (some ("k-secrets")) none (some ("k-env")) none).2.1
      rfl (by decide)⟩

example : extract_csv_block ("before ```csv\nA,B\n1,2\n``` after") = some ("A,B\n1,2") := by
  decide

example : extract_csv_block ("nothing here") = none := by decide

example : extract_csv_block ("x ```CSV\nQ\n``` y ```csv\nR\n``` z") = some ("Q") := by decide

example : extract_csv_block ("a``` csv\nQ\n```b") = none := by decide

example : read_pdf_bytes ⟨true, true, [("x")]⟩ ⟨true, false, [some ("y")]⟩ = ("x") := by decide

example : read_pdf_bytes ⟨true, false, [(""), ("")]⟩ ⟨true, false, []⟩ = ("\n") := by decide
